import Mathlib

/-!
# Verification of the browser-pool / downloader core

Shallow embedding of the `BrowserPool` class (`src/browserPool.js`, the
pool that `src/index.js` consumes) and of `DouyinDownloader.downloadFile`
(`src/index.js`).

Modelling conventions:
* JS timestamps (`Date.now()`) are `Nat` parameters threaded explicitly.
* The single-threaded cooperative scheduler means every synchronous run of
  JS code between two `await`s is one atomic step.  `getBrowser` contains
  an `await this._createBrowserInstance()` between its size check and the
  `this.pool.push(...)`, so it is embedded as two atomic steps:
  `getBrowserSync` (everything up to either a synchronous return / throw or
  the suspension) and `finishCreate` (the code that runs after the launch
  resolves).  `releaseBrowser`, `cleanup`'s bookkeeping and `closeAll`'s
  bookkeeping contain no intervening `await` around the mutations modelled
  here, so they are single steps.
* A queued `getBrowser` caller is identified by a `waiter` id (the promise
  whose `resolve` is stored in the queue item); resolving/rejecting it is
  modelled by returning the waiter id together with the payload.
-/

/-- One pooled browser instance, as built by `_createBrowserInstance`:
`{ id, browser, page, cookiePath, inUse, createdAt, lastUsed }`.  The
`browser`/`page`/`cookiePath` fields are opaque engine state identified by
`id` and are not modelled beyond that identity. -/
structure Handle where
  id : Nat
  inUse : Bool
  createdAt : Nat
  lastUsed : Nat
deriving Repr, DecidableEq

/-- One wait-queue item `{ resolve, reject, timestamp }`; `waiter`
identifies the pending promise whose `resolve`/`reject` it holds. -/
structure QueueItem where
  waiter : Nat
  timestamp : Nat
deriving Repr, DecidableEq

/-- The mutable state of a `BrowserPool` instance: configuration from the
constructor plus the `pool` and `queue` arrays. -/
structure PoolState where
  maxPoolSize : Nat
  maxQueueSize : Nat
  browserTimeout : Nat
  pool : List Handle
  queue : List QueueItem
deriving Repr, DecidableEq

/-- Outcome of the synchronous prefix of `getBrowser` (the code before any
`await`). -/
inductive AcquireOutcome where
  /-- `this.pool.find(b => !b.inUse)` hit: the handle is marked in-use and
  returned immediately. -/
  | reuse (h : Handle)
  /-- `this.pool.length < this.maxPoolSize`: the call suspends at
  `await this._createBrowserInstance()`; `finishCreate` is the resumption. -/
  | mustCreate
  /-- `this.queue.length >= this.maxQueueSize`:
  `throw new Error('Browser pool queue is full, request rejected')`. -/
  | queueFull
  /-- a queue item was pushed; the caller suspends on the stored promise. -/
  | enqueued
deriving Repr, DecidableEq

/-- `this.pool.find(b => !b.inUse)` followed by the in-place mutation
`availableBrowser.inUse = true; availableBrowser.lastUsed = Date.now()`:
returns the updated handle and the pool with that (first idle) element
updated. -/
def acquireIdle (now : Nat) : List Handle → Option (Handle × List Handle)
  | [] => none
  | b :: rest =>
    if b.inUse then
      (acquireIdle now rest).map (fun p => (p.1, b :: p.2))
    else
      let b' : Handle := { b with inUse := true, lastUsed := now }
      some (b', b' :: rest)

/-- Synchronous prefix of `getBrowser`, called by `waiter` at time `now`:
idle scan, then size check (suspending into creation), then queue-full
check, then enqueue. -/
def getBrowserSync (waiter now : Nat) (s : PoolState) : AcquireOutcome × PoolState :=
  match acquireIdle now s.pool with
  | some (h, pool') => (.reuse h, { s with pool := pool' })
  | none =>
    if s.pool.length < s.maxPoolSize then
      (.mustCreate, s)
    else if s.queue.length ≥ s.maxQueueSize then
      (.queueFull, s)
    else
      (.enqueued, { s with queue := s.queue ++ [⟨waiter, now⟩] })

/-- Resumption of `getBrowser` once `_createBrowserInstance` resolves at
time `now` with fresh id `id`: the new handle is built with
`inUse: true, createdAt: Date.now(), lastUsed: Date.now()` and pushed, then
returned to the caller. -/
def finishCreate (id now : Nat) (s : PoolState) : Handle × PoolState :=
  let h : Handle := { id := id, inUse := true, createdAt := now, lastUsed := now }
  (h, { s with pool := s.pool ++ [h] })

/-- `this.pool.findIndex(b => b.id === browserId)` followed by the in-place
mutation `inUse = false; lastUsed = Date.now()` on the found element:
returns the updated pool and the updated handle (the object
`this.pool[index]` after mutation), or `none` when the id is unknown. -/
def releaseUpdate (browserId now : Nat) : List Handle → Option (List Handle × Handle)
  | [] => none
  | b :: rest =>
    if b.id = browserId then
      let b' : Handle := { b with inUse := false, lastUsed := now }
      some (b' :: rest, b')
    else
      (releaseUpdate browserId now rest).map (fun p => (b :: p.1, p.2))

/-- `releaseBrowser(browserId)` at time `now`.  If the id is found the
handle is marked idle and, when the queue is non-empty,
`this.queue.shift()` pops the head and `nextRequest.resolve(this.pool[index])`
hands it this exact handle; the second component reports that hand-off as
`(waiter, handle)`.  An unknown id is a no-op. -/
def releaseBrowser (browserId now : Nat) (s : PoolState) :
    PoolState × Option (Nat × Handle) :=
  match releaseUpdate browserId now s.pool with
  | none => (s, none)
  | some (pool', b') =>
    match s.queue with
    | [] => ({ s with pool := pool' }, none)
    | q :: qs => ({ s with pool := pool', queue := qs }, some (q.waiter, b'))

/-- Whether the pool array holds a handle with this id
(`findIndex(...) !== -1`). -/
def hasId (l : List Handle) (i : Nat) : Bool :=
  l.any (fun b => b.id = i)

/-- The hard-coded queue-expiry window in `cleanup`:
`const queueTimeout = 60000`. -/
def queueTimeoutMs : Nat := 60000

/-- Pool phase of `cleanup` at time `now`: the loop collects the indices of
every instance with `!instance.inUse && (now - instance.lastUsed > browserTimeout)`
and splices them out back-to-front (an order-preserving removal), closing
each removed instance's browser inside a `try`/`catch` (errors logged and
swallowed).  Returns `(kept pool, removed-and-closed instances)`. -/
def cleanupPool (now timeout : Nat) : List Handle → List Handle × List Handle
  | [] => ([], [])
  | h :: rest =>
    let p := cleanupPool now timeout rest
    if !h.inUse && decide (now - h.lastUsed > timeout) then
      (p.1, h :: p.2)
    else
      (h :: p.1, p.2)

/-- Queue phase of `cleanup` at time `now`: entries with
`now - req.timestamp > queueTimeout` are spliced out of the queue and
rejected with `Error('Request timed out in queue')` (an order-preserving
removal, each expired entry found once by `indexOf`).  Returns
`(remaining queue, waiters rejected with the timeout error)`. -/
def cleanupQueue (now : Nat) : List QueueItem → List QueueItem × List Nat
  | [] => ([], [])
  | q :: rest =>
    let p := cleanupQueue now rest
    if decide (now - q.timestamp > queueTimeoutMs) then
      (p.1, q.waiter :: p.2)
    else
      (q :: p.1, p.2)

/-- One `cleanup()` tick at time `now`.  Returns the new state, the retired
(closed and removed) instances, and the waiters rejected with the queue
timeout error. -/
def cleanup (now : Nat) (s : PoolState) : PoolState × List Handle × List Nat :=
  let pp := cleanupPool now s.browserTimeout s.pool
  let qq := cleanupQueue now s.queue
  ({ s with pool := pp.1, queue := qq.1 }, pp.2, qq.2)

/-- The teardown loop of `closeAll`: `await instance.browser.close()` is
attempted for every pool member inside a `try`/`catch` (a failure is logged
and the loop continues).  `closeOk id` says whether closing instance `id`
succeeds; the result records every attempted close with its outcome. -/
def closeAllGo (closeOk : Nat → Bool) : List Handle → List (Nat × Bool)
  | [] => []
  | h :: rest => (h.id, closeOk h.id) :: closeAllGo closeOk rest

/-- `closeAll()`: closes every instance best-effort, sets `this.pool = []`,
rejects every queued request with
`Error('Browser pool is shutting down')`, sets `this.queue = []`.  Returns
the new state, the attempted closes `(id, succeeded)`, and the waiters
rejected with the shutting-down error. -/
def closeAll (closeOk : Nat → Bool) (s : PoolState) :
    PoolState × List (Nat × Bool) × List Nat :=
  ({ s with pool := [], queue := [] },
   closeAllGo closeOk s.pool,
   s.queue.map (fun q => q.waiter))

-- sanity checks of the embedding on concrete states
example :
    getBrowserSync 1 10
      { maxPoolSize := 2, maxQueueSize := 1, browserTimeout := 300000,
        pool := [⟨5, false, 0, 0⟩], queue := [] }
      = (.reuse ⟨5, true, 0, 10⟩,
         { maxPoolSize := 2, maxQueueSize := 1, browserTimeout := 300000,
           pool := [⟨5, true, 0, 10⟩], queue := [] }) := by decide

example :
    (releaseBrowser 5 20
      { maxPoolSize := 2, maxQueueSize := 1, browserTimeout := 300000,
        pool := [⟨5, true, 0, 10⟩], queue := [⟨9, 3⟩] }).2
      = some (9, ⟨5, false, 0, 20⟩) := by decide

/-!
## `DouyinDownloader.downloadFile` (src/index.js)

The retry loop is embedded with an explicit `gas` bound: each failing
iteration increments `retries` and continues only while
`retries < maxRetries`, so `maxRetries + 1` gas always suffices and the
top-level `downloadFile` below supplies it.  The file system is the list of
existing paths; the network fetch plus the streamed write are one abstract
attempt whose outcome comes from an oracle indexed by the number of fetches
already made.  A write failure after `fs.createWriteStream(targetPath)` has
opened (and hence created) the target file leaves that file on disk, which
the next iteration's `fs.existsSync(targetPath)` observes: that is the
`failPartialFile` outcome.  Pool traffic is recorded as an operation log:
`finally` releases the borrowed instance on every path, and the `catch`
branch `await`s the retry delay before `finally` runs, so a failing
non-final iteration logs `[borrow, wait retryDelay, release]`.
-/

/-- Outcome of one fetch-and-stream attempt: success writes the target
file; `failNoFile` is a failure before the write stream is opened (axios
network error / bad status), leaving no file; `failPartialFile` is a
failure after the write stream created the target file (partial write),
leaving the (partial) file on disk.  Both failures carry the error
message. -/
inductive FetchOutcome where
  | success
  | failNoFile (msg : String)
  | failPartialFile (msg : String)
deriving Repr, DecidableEq

/-- One pool-facing effect of `downloadFile`: `borrow` is
`await this.browserPool.getBrowser()`, `release` is
`this.browserPool.releaseBrowser(id)` in the `finally`, `wait` is the
`setTimeout(this.retryDelay)` pause in the `catch`. -/
inductive DlOp where
  | borrow
  | release
  | wait (ms : Nat)
deriving Repr, DecidableEq

/-- `Download failed after ${maxRetries} attempts: ${error.message}` -/
def dlErrMsg (maxRetries : Nat) (msg : String) : String :=
  "Download failed after " ++ toString maxRetries ++ " attempts: " ++ msg

/-- The fixed illegal-character set of
`filename.replace(/[\\/:*?"<>|]/g, '_')`. -/
def illegalChar (c : Char) : Bool :=
  c = '\\' || c = '/' || c = ':' || c = '*' || c = '?' || c = '"' ||
    c = '<' || c = '>' || c = '|'

/-- `filename.replace(/[\\/:*?"<>|]/g, '_')`: every illegal character is
replaced by an underscore. -/
def sanitizeFilename (s : String) : String :=
  String.mk (s.data.map (fun c => if illegalChar c then '_' else c))

/-- `path.join(downloadDir, sanitizedFilename + '.mp4')` with the fixed
download directory abbreviated to its final component. -/
def targetPathOf (filename : String) : String :=
  "downloads/" ++ sanitizeFilename filename ++ ".mp4"

deriving instance DecidableEq for Except

/-- Result of a terminated `downloadFile` run: the returned path or thrown
error message, the file system afterwards, the number of fetch attempts
made, and the pool-operation log. -/
structure DlOut where
  result : Except String String
  files : List String
  fetches : Nat
  ops : List DlOp
deriving Repr, DecidableEq

/-- The `while (true)` body of `downloadFile`, one constructor application
per iteration.  `retries` and the file check mirror the source: the
iteration first returns the target if it exists (no borrow happened, the
`finally` sees `browserInstance === null`); otherwise it borrows, fetches,
and on failure increments `retries`, waiting and looping while
`retries < maxRetries`, else throwing `dlErrMsg` with the last error. -/
def dlLoop (maxRetries retryDelay : Nat) (oracle : Nat → FetchOutcome)
    (target : String) :
    Nat → Nat → List String → Nat → List DlOp → Option DlOut
  | 0, _, _, _, _ => none
  | gas + 1, retries, files, fetches, ops =>
    if target ∈ files then
      some ⟨Except.ok target, files, fetches, ops⟩
    else
      match oracle fetches with
      | .success =>
        some ⟨Except.ok target, files ++ [target], fetches + 1,
          ops ++ [.borrow, .release]⟩
      | .failNoFile m =>
        if retries + 1 < maxRetries then
          dlLoop maxRetries retryDelay oracle target gas (retries + 1) files
            (fetches + 1) (ops ++ [.borrow, .wait retryDelay, .release])
        else
          some ⟨Except.error (dlErrMsg maxRetries m), files, fetches + 1,
            ops ++ [.borrow, .release]⟩
      | .failPartialFile m =>
        if retries + 1 < maxRetries then
          dlLoop maxRetries retryDelay oracle target gas (retries + 1)
            (files ++ [target]) (fetches + 1)
            (ops ++ [.borrow, .wait retryDelay, .release])
        else
          some ⟨Except.error (dlErrMsg maxRetries m), files ++ [target],
            fetches + 1, ops ++ [.borrow, .release]⟩

/-- `downloadFile(url, filename)` over file system `files`: sanitizes the
filename, then runs the retry loop starting from `retries = 0`.
`maxRetries + 1` gas bounds the at most `max 1 maxRetries` iterations. -/
def downloadFile (maxRetries retryDelay : Nat) (oracle : Nat → FetchOutcome)
    (filename : String) (files : List String) : Option DlOut :=
  dlLoop maxRetries retryDelay oracle (targetPathOf filename)
    (maxRetries + 1) 0 files 0 []

/-- Interpreting a pool-operation log over any pool semantics. -/
def opsFold (interp : DlOp → PoolState → PoolState)
    (l : List DlOp) (ps : PoolState) : PoolState :=
  l.foldl (fun s op => interp op s) ps

/-- A sequence of `releaseBrowser` calls at time `now`, recording the
hand-offs `(waiter, handle)` in the order they are resolved. -/
def releaseSeq (now : Nat) : List Nat → PoolState → PoolState × List (Nat × Handle)
  | [], s => (s, [])
  | id :: rest, s =>
    let r := releaseBrowser id now s
    let r2 := releaseSeq now rest r.1
    (r2.1, r.2.toList ++ r2.2)

/-- Pool/wait operations of a `downloadFile` run with `f` failed iterations
that continue (each: borrow, wait the retry delay inside the `catch`, then
release in the `finally`) followed by one final iteration (borrow,
release): the final iteration is either the successful attempt or the
attempt whose failure exhausts the retry budget (its `catch` throws without
waiting). -/
def retryOps (delay : Nat) : Nat → List DlOp
  | 0 => [.borrow, .release]
  | f + 1 => [.borrow, .wait delay, .release] ++ retryOps delay f

example :
    downloadFile 3 5000 (fun _ => .success) "a" []
      = some ⟨Except.ok "downloads/a.mp4", ["downloads/a.mp4"], 1,
          [.borrow, .release]⟩ := by rfl

example :
    downloadFile 2 5000 (fun _ => .failNoFile "net") "a" []
      = some ⟨Except.error (dlErrMsg 2 "net"), [], 2,
          [.borrow, .wait 5000, .release, .borrow, .release]⟩ := by rfl

/-!
## Helper lemmas
-/

theorem acquireIdle_none_of_all_inUse (now : Nat) :
    ∀ l : List Handle, (∀ h ∈ l, h.inUse = true) → acquireIdle now l = none := by
  intro l
  induction l with
  | nil => intro _; rfl
  | cons b rest ih =>
    intro hall
    have hb : b.inUse = true := hall b (by simp)
    have hrest := ih (fun h hm => hall h (by simp [hm]))
    simp [acquireIdle, hb, hrest]

theorem closeAllGo_ids (closeOk : Nat → Bool) :
    ∀ l : List Handle, (closeAllGo closeOk l).map Prod.fst = l.map Handle.id := by
  intro l
  induction l with
  | nil => rfl
  | cons b rest ih => simp [closeAllGo, ih]

/-!
## Claim theorems: pool admission and shutdown
-/

/-- C4: when every handle is in use, the pool is at `maxPoolSize` and the
queue is at `maxQueueSize`, `getBrowser` throws the
`'Browser pool queue is full, request rejected'` error in its synchronous
prefix — before any suspension point — leaving the pool and queue
untouched (the returned state is the input state). -/
theorem full_pool_full_queue_rejects (w now : Nat) (s : PoolState)
    (hAll : ∀ h ∈ s.pool, h.inUse = true)
    (hPool : s.pool.length = s.maxPoolSize)
    (hQueue : s.queue.length = s.maxQueueSize) :
    getBrowserSync w now s = (.queueFull, s) := by
  unfold getBrowserSync
  rw [acquireIdle_none_of_all_inUse now s.pool hAll]
  simp [hPool, hQueue]

/-- Witness for `full_pool_full_queue_rejects` at a concrete saturated
pool. -/
theorem full_pool_full_queue_rejects_witness :
    (∀ h ∈ ({ maxPoolSize := 1, maxQueueSize := 1, browserTimeout := 300000,
              pool := [⟨1, true, 0, 0⟩], queue := [⟨2, 0⟩] } : PoolState).pool,
        h.inUse = true) ∧
    getBrowserSync 3 100
        { maxPoolSize := 1, maxQueueSize := 1, browserTimeout := 300000,
          pool := [⟨1, true, 0, 0⟩], queue := [⟨2, 0⟩] }
      = (.queueFull,
         { maxPoolSize := 1, maxQueueSize := 1, browserTimeout := 300000,
           pool := [⟨1, true, 0, 0⟩], queue := [⟨2, 0⟩] }) :=
  ⟨by decide, full_pool_full_queue_rejects 3 100 _ (by decide) (by decide) (by decide)⟩

/-- C1 (violated by the code): `releaseBrowser` hands the released handle
to the queued waiter while its `inUse` flag is `false` — the waiter holds a
handle whose state is Idle, not InUse — and a subsequent `getBrowser` idle
scan then returns the very same handle (id 1) to a second borrower, so two
concurrent borrowers share one handle. -/
theorem release_handoff_double_borrow :
    (releaseBrowser 1 5
        { maxPoolSize := 1, maxQueueSize := 10, browserTimeout := 300000,
          pool := [⟨1, true, 0, 0⟩], queue := [⟨7, 0⟩] }).2
      = some (7, ⟨1, false, 0, 5⟩) ∧
    (getBrowserSync 8 6
        (releaseBrowser 1 5
          { maxPoolSize := 1, maxQueueSize := 10, browserTimeout := 300000,
            pool := [⟨1, true, 0, 0⟩], queue := [⟨7, 0⟩] }).1).1
      = .reuse ⟨1, true, 0, 6⟩ := by decide

/-- C2 (violated by the code): with `maxPoolSize = 1` and an empty pool,
two concurrent `getBrowser` calls both pass the
`this.pool.length < this.maxPoolSize` check (each then suspends at
`await this._createBrowserInstance()`, which leaves the pool unchanged), and
each resumption pushes its new handle: the pool ends at 2 handles, strictly
more than `maxPoolSize`. -/
theorem interleaved_create_exceeds_maxPoolSize :
    (getBrowserSync 1 0
        { maxPoolSize := 1, maxQueueSize := 100, browserTimeout := 300000,
          pool := [], queue := [] }).1 = .mustCreate ∧
    (getBrowserSync 2 0
        (getBrowserSync 1 0
          { maxPoolSize := 1, maxQueueSize := 100, browserTimeout := 300000,
            pool := [], queue := [] }).2).1 = .mustCreate ∧
    ((finishCreate 11 2
        (finishCreate 10 1
          (getBrowserSync 2 0
            (getBrowserSync 1 0
              { maxPoolSize := 1, maxQueueSize := 100, browserTimeout := 300000,
                pool := [], queue := [] }).2).2).2).2).pool.length = 2 ∧
    ((finishCreate 11 2
        (finishCreate 10 1
          (getBrowserSync 2 0
            (getBrowserSync 1 0
              { maxPoolSize := 1, maxQueueSize := 100, browserTimeout := 300000,
                pool := [], queue := [] }).2).2).2).2).maxPoolSize = 1 := by decide

/-- C5 (amended): `closeAll` empties the handle collection and the wait
queue, attempts to close every pooled instance regardless of which
individual closes fail (`closeOk` arbitrary — one failure does not block
the rest), and rejects every queued waiter with the
`'Browser pool is shutting down'` error. -/
theorem closeAll_rejects_queue_and_empties_pool (closeOk : Nat → Bool)
    (s : PoolState) :
    (closeAll closeOk s).1.pool = [] ∧
    (closeAll closeOk s).1.queue = [] ∧
    ((closeAll closeOk s).2.1).map Prod.fst = s.pool.map Handle.id ∧
    (closeAll closeOk s).2.2 = s.queue.map QueueItem.waiter :=
  ⟨rfl, rfl, closeAllGo_ids closeOk s.pool, rfl⟩

/-- C5 counterexample to the claim as stated: `closeAll` does NOT stop
accepting new `acquire` calls.  After a `closeAll` on a concrete pool, a
fresh `getBrowser` call proceeds to create a brand-new instance (outcome
`mustCreate`, resumed into a live in-use handle) instead of failing. -/
theorem closeAll_not_stop_acquires :
    (getBrowserSync 9 50
        (closeAll (fun _ => true)
          { maxPoolSize := 2, maxQueueSize := 1, browserTimeout := 300000,
            pool := [⟨1, true, 0, 0⟩], queue := [] }).1).1 = .mustCreate ∧
    (finishCreate 42 60
        (getBrowserSync 9 50
          (closeAll (fun _ => true)
            { maxPoolSize := 2, maxQueueSize := 1, browserTimeout := 300000,
              pool := [⟨1, true, 0, 0⟩], queue := [] }).1).2).1
      = ⟨42, true, 60, 60⟩ := by decide

/-!
## Claim theorems: idle reaper
-/

theorem cleanupPool_kept (now timeout : Nat) :
    ∀ l : List Handle,
      (cleanupPool now timeout l).1 =
        l.filter (fun h => !(!h.inUse && decide (now - h.lastUsed > timeout))) := by
  intro l
  induction l with
  | nil => rfl
  | cons b rest ih =>
    simp only [cleanupPool]
    cases hu : b.inUse with
    | true => simp [List.filter_cons, hu, ih]
    | false =>
      cases hd : decide (now - b.lastUsed > timeout) with
      | true => simp [List.filter_cons, hu, hd, ih]
      | false => simp [List.filter_cons, hu, hd, ih]

theorem cleanupPool_removed (now timeout : Nat) :
    ∀ l : List Handle,
      (cleanupPool now timeout l).2 =
        l.filter (fun h => !h.inUse && decide (now - h.lastUsed > timeout)) := by
  intro l
  induction l with
  | nil => rfl
  | cons b rest ih =>
    simp only [cleanupPool]
    cases hu : b.inUse with
    | true => simp [List.filter_cons, hu, ih]
    | false =>
      cases hd : decide (now - b.lastUsed > timeout) with
      | true => simp [List.filter_cons, hu, hd, ih]
      | false => simp [List.filter_cons, hu, hd, ih]

theorem cleanupQueue_kept (now : Nat) :
    ∀ l : List QueueItem,
      (cleanupQueue now l).1 =
        l.filter (fun q => !decide (now - q.timestamp > queueTimeoutMs)) := by
  intro l
  induction l with
  | nil => rfl
  | cons q rest ih =>
    simp only [cleanupQueue]
    cases hq : decide (now - q.timestamp > queueTimeoutMs) with
    | true => simp [List.filter_cons, hq, ih]
    | false => simp [List.filter_cons, hq, ih]

theorem cleanupQueue_rejected (now : Nat) :
    ∀ l : List QueueItem,
      (cleanupQueue now l).2 =
        (l.filter (fun q => decide (now - q.timestamp > queueTimeoutMs))).map
          QueueItem.waiter := by
  intro l
  induction l with
  | nil => rfl
  | cons q rest ih =>
    simp only [cleanupQueue]
    cases hq : decide (now - q.timestamp > queueTimeoutMs) with
    | true => simp [List.filter_cons, hq, ih]
    | false => simp [List.filter_cons, hq, ih]

/-- C6: one reaper tick never retires an in-use handle (regardless of age),
never retires an idle handle within the timeout, and retires — closes and
removes — every idle handle strictly older than the timeout. -/
theorem cleanup_retires_exactly_timedout_idle (s : PoolState) (now : Nat)
    (h : Handle) (hmem : h ∈ s.pool) :
    (h.inUse = true →
       h ∈ (cleanup now s).1.pool ∧ h ∉ (cleanup now s).2.1) ∧
    (h.inUse = false → now - h.lastUsed ≤ s.browserTimeout →
       h ∈ (cleanup now s).1.pool ∧ h ∉ (cleanup now s).2.1) ∧
    (h.inUse = false → now - h.lastUsed > s.browserTimeout →
       h ∈ (cleanup now s).2.1 ∧ h ∉ (cleanup now s).1.pool) := by
  simp only [cleanup, cleanupPool_kept, cleanupPool_removed, List.mem_filter]
  refine ⟨fun h1 => ?_, fun h1 h2 => ?_, fun h1 h2 => ?_⟩
  · simp [hmem, h1]
  · simp [hmem, h1, Nat.not_lt.mpr h2]
  · simp [hmem, h1, h2]

/-- Witness for `cleanup_retires_exactly_timedout_idle`: an idle handle
(id 2, last used at 0) strictly older than the 1000ms timeout is retired at
`now = 2000`, while the in-use handle (id 1) survives. -/
theorem cleanup_retires_exactly_timedout_idle_witness :
    (⟨2, false, 0, 0⟩ : Handle) ∈
      ({ maxPoolSize := 2, maxQueueSize := 1, browserTimeout := 1000,
         pool := [⟨1, true, 0, 0⟩, ⟨2, false, 0, 0⟩], queue := [] } : PoolState).pool ∧
    ((⟨2, false, 0, 0⟩ : Handle) ∈
        (cleanup 2000
          { maxPoolSize := 2, maxQueueSize := 1, browserTimeout := 1000,
            pool := [⟨1, true, 0, 0⟩, ⟨2, false, 0, 0⟩], queue := [] }).2.1 ∧
      (⟨2, false, 0, 0⟩ : Handle) ∉
        (cleanup 2000
          { maxPoolSize := 2, maxQueueSize := 1, browserTimeout := 1000,
            pool := [⟨1, true, 0, 0⟩, ⟨2, false, 0, 0⟩], queue := [] }).1.pool) :=
  ⟨by decide,
   (cleanup_retires_exactly_timedout_idle
      { maxPoolSize := 2, maxQueueSize := 1, browserTimeout := 1000,
        pool := [⟨1, true, 0, 0⟩, ⟨2, false, 0, 0⟩], queue := [] }
      2000 ⟨2, false, 0, 0⟩ (by decide)).2.2 rfl (by decide)⟩

theorem releaseBrowser_handoff_from_head (id t : Nat) (u : PoolState)
    (w : Nat) (hh : Handle)
    (hrel : (releaseBrowser id t u).2 = some (w, hh)) :
    ∃ q qs, u.queue = q :: qs ∧ w = q.waiter := by
  unfold releaseBrowser at hrel
  cases hru : releaseUpdate id t u.pool with
  | none => rw [hru] at hrel; simp at hrel
  | some p =>
    rw [hru] at hrel
    cases hq : u.queue with
    | nil => rw [hq] at hrel; simp at hrel
    | cons q qs =>
      rw [hq] at hrel
      simp at hrel
      exact ⟨q, qs, rfl, hrel.1.symm⟩

/-- C7: at a reaper tick, every queued entry strictly older than the
queue-expiry window is rejected with the
`'Request timed out in queue'` error and removed from the queue (never
silently dropped); every younger entry stays and is not rejected; under
distinct waiters each expired entry is rejected exactly once; and a
release performed after the tick can only fulfil a surviving entry —
never one of the rejected (expired) waiters. -/
theorem cleanup_expires_queue_exactly_once (s : PoolState) (now : Nat)
    (hnd : (s.queue.map QueueItem.waiter).Nodup) :
    (∀ q ∈ s.queue, now - q.timestamp > queueTimeoutMs →
       q.waiter ∈ (cleanup now s).2.2 ∧ q ∉ (cleanup now s).1.queue) ∧
    (∀ q ∈ s.queue, now - q.timestamp ≤ queueTimeoutMs →
       q ∈ (cleanup now s).1.queue ∧ q.waiter ∉ (cleanup now s).2.2) ∧
    ((cleanup now s).2.2).Nodup ∧
    (∀ id t w hh, (releaseBrowser id t (cleanup now s).1).2 = some (w, hh) →
       w ∉ (cleanup now s).2.2) := by
  have hkept : (cleanup now s).1.queue =
      s.queue.filter (fun q => !decide (now - q.timestamp > queueTimeoutMs)) := by
    simp [cleanup, cleanupQueue_kept]
  have hrej : (cleanup now s).2.2 =
      (s.queue.filter (fun q => decide (now - q.timestamp > queueTimeoutMs))).map
        QueueItem.waiter := by
    simp [cleanup, cleanupQueue_rejected]
  have fresh_not_rejected :
      ∀ q ∈ s.queue, now - q.timestamp ≤ queueTimeoutMs →
        q.waiter ∉ (cleanup now s).2.2 := by
    intro q hq hle hmemr
    rw [hrej] at hmemr
    obtain ⟨q', hq', hw⟩ := List.mem_map.mp hmemr
    obtain ⟨hq'mem, hq'exp⟩ := List.mem_filter.mp hq'
    have : q' = q := List.inj_on_of_nodup_map hnd hq'mem hq hw
    subst this
    exact absurd (of_decide_eq_true hq'exp) (Nat.not_lt.mpr hle)
  refine ⟨?_, ?_, ?_, ?_⟩
  · intro q hq hexp
    constructor
    · rw [hrej]
      exact List.mem_map.mpr
        ⟨q, List.mem_filter.mpr ⟨hq, decide_eq_true hexp⟩, rfl⟩
    · intro hcon
      rw [hkept] at hcon
      have := (List.mem_filter.mp hcon).2
      simp at this
      omega
  · intro q hq hle
    refine ⟨?_, fresh_not_rejected q hq hle⟩
    rw [hkept]
    refine List.mem_filter.mpr ⟨hq, ?_⟩
    simp [Nat.not_lt.mpr hle]
  · rw [hrej]
    exact hnd.sublist ((List.filter_sublist s.queue).map QueueItem.waiter)
  · intro id t w hh hrel
    obtain ⟨q, qs, hqe, hwq⟩ := releaseBrowser_handoff_from_head id t _ w hh hrel
    have hqmem : q ∈ (cleanup now s).1.queue := by rw [hqe]; simp
    rw [hkept] at hqmem
    obtain ⟨hqm, hqf⟩ := List.mem_filter.mp hqmem
    have hle : now - q.timestamp ≤ queueTimeoutMs := by
      simp at hqf
      omega
    rw [hwq]
    exact fresh_not_rejected q hqm hle

/-- Witness for `cleanup_expires_queue_exactly_once`: a two-entry queue at
`now = 100000` — the entry enqueued at 0 (older than the 60000ms window) is
rejected and removed, the entry enqueued at 90000 survives. -/
theorem cleanup_expires_queue_exactly_once_witness :
    ((⟨5, 0⟩ : QueueItem) ∈
      ({ maxPoolSize := 1, maxQueueSize := 2, browserTimeout := 300000,
         pool := [], queue := [⟨5, 0⟩, ⟨6, 90000⟩] } : PoolState).queue) ∧
    ((5 : Nat) ∈
        (cleanup 100000
          { maxPoolSize := 1, maxQueueSize := 2, browserTimeout := 300000,
            pool := [], queue := [⟨5, 0⟩, ⟨6, 90000⟩] }).2.2 ∧
      (⟨5, 0⟩ : QueueItem) ∉
        (cleanup 100000
          { maxPoolSize := 1, maxQueueSize := 2, browserTimeout := 300000,
            pool := [], queue := [⟨5, 0⟩, ⟨6, 90000⟩] }).1.queue) :=
  ⟨by decide,
   (cleanup_expires_queue_exactly_once
      { maxPoolSize := 1, maxQueueSize := 2, browserTimeout := 300000,
        pool := [], queue := [⟨5, 0⟩, ⟨6, 90000⟩] }
      100000 (by decide)).1 ⟨5, 0⟩ (by decide) (by decide)⟩

/-!
## Claim theorems: release hand-off and FIFO order
-/

theorem releaseUpdate_some_spec (browserId now : Nat) :
    ∀ l l' b', releaseUpdate browserId now l = some (l', b') →
      l'.map Handle.id = l.map Handle.id ∧ b'.id = browserId ∧
      b'.inUse = false ∧ b'.lastUsed = now := by
  intro l
  induction l with
  | nil => intro l' b' h; simp [releaseUpdate] at h
  | cons b rest ih =>
    intro l' b' h
    by_cases hb : b.id = browserId
    · simp only [releaseUpdate, if_pos hb, Option.some.injEq, Prod.mk.injEq] at h
      obtain ⟨h1, h2⟩ := h
      subst h1; subst h2
      simp [hb]
    · simp only [releaseUpdate, if_neg hb, Option.map_eq_some'] at h
      obtain ⟨p, hp, hfp⟩ := h
      obtain ⟨h1, h2⟩ := Prod.mk.injEq .. |>.mp hfp
      subst h1; subst h2
      obtain ⟨hids, hid, hiu, hlu⟩ := ih p.1 p.2 hp
      exact ⟨by simp [hids], hid, hiu, hlu⟩

theorem releaseUpdate_isSome_of_hasId (browserId now : Nat) :
    ∀ l : List Handle, hasId l browserId = true →
      (releaseUpdate browserId now l).isSome := by
  intro l
  induction l with
  | nil => intro h; simp [hasId] at h
  | cons b rest ih =>
    intro h
    by_cases hb : b.id = browserId
    · simp [releaseUpdate, hb]
    · have hr : hasId rest browserId = true := by
        simp [hasId] at h ⊢
        rcases h with h | h
        · exact absurd h hb
        · exact h
      simp [releaseUpdate, hb, Option.isSome_map]
      have := ih hr
      simpa [Option.isSome_map] using this

theorem hasId_eq_of_ids_eq {l1 l2 : List Handle}
    (h : l1.map Handle.id = l2.map Handle.id) (i : Nat) :
    hasId l1 i = hasId l2 i := by
  have key : ∀ l : List Handle,
      hasId l i = (l.map Handle.id).any (fun x => decide (x = i)) := by
    intro l
    induction l with
    | nil => rfl
    | cons b rest ih =>
      simp only [hasId, List.any_cons, List.map_cons] at ih ⊢
      rw [ih]
  rw [key l1, key l2, h]

theorem releaseBrowser_pool_ids (browserId now : Nat) (s : PoolState) :
    (releaseBrowser browserId now s).1.pool.map Handle.id =
      s.pool.map Handle.id := by
  cases hru : releaseUpdate browserId now s.pool with
  | none => simp [releaseBrowser, hru]
  | some p =>
    have hspec := releaseUpdate_some_spec browserId now s.pool p.1 p.2 (by rw [hru])
    cases hq : s.queue with
    | nil => simp [releaseBrowser, hru, hq, hspec.1]
    | cons q qs => simp [releaseBrowser, hru, hq, hspec.1]

theorem releaseBrowser_of_hasId (browserId now : Nat) (s : PoolState)
    (hid : hasId s.pool browserId = true) :
    (releaseBrowser browserId now s).1.queue = s.queue.tail ∧
    (releaseBrowser browserId now s).2.map Prod.fst =
      s.queue.head?.map QueueItem.waiter := by
  have hsome := releaseUpdate_isSome_of_hasId browserId now s.pool hid
  obtain ⟨p, hru⟩ := Option.isSome_iff_exists.mp hsome
  cases hq : s.queue with
  | nil => simp [releaseBrowser, hru, hq]
  | cons q qs => simp [releaseBrowser, hru, hq]

/-- C3: when the released id is in the pool and the queue is non-empty,
`releaseBrowser` resolves the oldest (head) entry with exactly the released
handle — skipping the idle scan, in the same atomic step as the release
(no suspension point intervenes, so no subsequent `acquire` can observe an
idle handle first) — removing exactly that head entry; and a sequence of
releases fulfils queued entries strictly in enqueue (FIFO) order: the
fulfilled waiters are a prefix of the queue in order. -/
theorem release_fifo_handoff :
    (∀ (s : PoolState) (id now : Nat) (q : QueueItem) (qs : List QueueItem),
       s.queue = q :: qs → hasId s.pool id = true →
       ∃ h', (releaseBrowser id now s).2 = some (q.waiter, h') ∧ h'.id = id ∧
         (releaseBrowser id now s).1.queue = qs) ∧
    (∀ (s : PoolState) (now : Nat) (ids : List Nat),
       (∀ i ∈ ids, hasId s.pool i = true) →
       (releaseSeq now ids s).2.map Prod.fst =
         (s.queue.map QueueItem.waiter).take ids.length) := by
  constructor
  · intro s id now q qs hq hid
    have hsome := releaseUpdate_isSome_of_hasId id now s.pool hid
    obtain ⟨⟨l', b'⟩, hru⟩ := Option.isSome_iff_exists.mp hsome
    have hspec := releaseUpdate_some_spec id now s.pool l' b' hru
    exact ⟨b', by simp [releaseBrowser, hru, hq], hspec.2.1,
      by simp [releaseBrowser, hru, hq]⟩
  · intro s now ids
    induction ids generalizing s with
    | nil => intro _; simp [releaseSeq]
    | cons i rest ih =>
      intro hall
      have hid : hasId s.pool i = true := hall i (by simp)
      have hrest : ∀ j ∈ rest, hasId (releaseBrowser i now s).1.pool j = true := by
        intro j hj
        rw [hasId_eq_of_ids_eq (releaseBrowser_pool_ids i now s) j]
        exact hall j (by simp [hj])
      have hchar := releaseBrowser_of_hasId i now s hid
      have hrec := ih ((releaseBrowser i now s).1) hrest
      simp only [releaseSeq, List.map_append]
      rw [hrec, hchar.1]
      cases hq : s.queue with
      | nil =>
        have : (releaseBrowser i now s).2 = none := by
          have := hchar.2
          rw [hq] at this
          simpa using this
        simp [this, hq]
      | cons q qs =>
        have : (releaseBrowser i now s).2.map Prod.fst = some q.waiter := by
          have := hchar.2
          rw [hq] at this
          simpa using this
        cases hrel : (releaseBrowser i now s).2 with
        | none => rw [hrel] at this; simp at this
        | some pr =>
          rw [hrel] at this
          simp at this
          simp [hrel, hq, this]

/-- Witness for `release_fifo_handoff`: releasing handle 1 with a
two-entry queue resolves waiter 7 (the head) with the released handle and
leaves only the younger entry queued. -/
theorem release_fifo_handoff_witness :
    hasId [⟨1, true, 0, 0⟩] 1 = true ∧
    (∃ h', (releaseBrowser 1 5
        { maxPoolSize := 1, maxQueueSize := 10, browserTimeout := 300000,
          pool := [⟨1, true, 0, 0⟩], queue := [⟨7, 2⟩, ⟨8, 3⟩] }).2
          = some (7, h') ∧ h'.id = 1 ∧
      (releaseBrowser 1 5
        { maxPoolSize := 1, maxQueueSize := 10, browserTimeout := 300000,
          pool := [⟨1, true, 0, 0⟩], queue := [⟨7, 2⟩, ⟨8, 3⟩] }).1.queue
        = [⟨8, 3⟩]) :=
  ⟨by decide,
   release_fifo_handoff.1
     { maxPoolSize := 1, maxQueueSize := 10, browserTimeout := 300000,
       pool := [⟨1, true, 0, 0⟩], queue := [⟨7, 2⟩, ⟨8, 3⟩] }
     1 5 ⟨7, 2⟩ [⟨8, 3⟩] rfl (by decide)⟩

/-!
## Claim theorems: transfer pipeline
-/

theorem dlLoop_ok_mem (maxRetries retryDelay : Nat) (oracle : Nat → FetchOutcome)
    (target : String) :
    ∀ gas retries files fetches ops out p,
      dlLoop maxRetries retryDelay oracle target gas retries files fetches ops
        = some out →
      out.result = Except.ok p →
      p = target ∧ target ∈ out.files := by
  intro gas
  induction gas with
  | zero =>
    intro retries files fetches ops out p h
    simp [dlLoop] at h
  | succ gas ih =>
    intro retries files fetches ops out p h hok
    simp only [dlLoop] at h
    by_cases hex : target ∈ files
    · rw [if_pos hex] at h
      injection h with h
      subst h
      simp only [Except.ok.injEq] at hok
      exact ⟨hok.symm, hex⟩
    · rw [if_neg hex] at h
      cases horacle : oracle fetches with
      | success =>
        rw [horacle] at h
        injection h with h
        subst h
        simp only [Except.ok.injEq] at hok
        exact ⟨hok.symm, by simp⟩
      | failNoFile m =>
        rw [horacle] at h
        dsimp only at h
        by_cases hret : retries + 1 < maxRetries
        · rw [if_pos hret] at h
          exact ih _ _ _ _ out p h hok
        · rw [if_neg hret] at h
          injection h with h
          subst h
          simp at hok
      | failPartialFile m =>
        rw [horacle] at h
        dsimp only at h
        by_cases hret : retries + 1 < maxRetries
        · rw [if_pos hret] at h
          exact ih _ _ _ _ out p h hok
        · rw [if_neg hret] at h
          injection h with h
          subst h
          simp at hok

/-- C8: `downloadFile` is idempotent.  If a first call returned the path
`p` (so the sanitized target file exists afterwards), a second call with
the same destination name — whatever the network would now do — returns
the same path immediately: zero fetch attempts, no pool operations, file
system unchanged. -/
theorem downloadFile_idempotent (maxRetries retryDelay : Nat)
    (oracle oracle2 : Nat → FetchOutcome) (filename : String)
    (files0 : List String) (out : DlOut) (p : String)
    (h1 : downloadFile maxRetries retryDelay oracle filename files0 = some out)
    (h2 : out.result = Except.ok p) :
    downloadFile maxRetries retryDelay oracle2 filename out.files =
      some ⟨Except.ok p, out.files, 0, []⟩ := by
  obtain ⟨hp, hmem⟩ := dlLoop_ok_mem maxRetries retryDelay oracle
    (targetPathOf filename) (maxRetries + 1) 0 files0 0 [] out p h1 h2
  subst hp
  unfold downloadFile
  simp [dlLoop, hmem]

/-- Witness for `downloadFile_idempotent`: a successful first download of
"a", then a second call whose network would fail — it still returns the
same path with zero fetches and an empty pool-operation log. -/
theorem downloadFile_idempotent_witness :
    downloadFile 3 5000 (fun _ => FetchOutcome.success) "a" [] =
      some ⟨Except.ok "downloads/a.mp4", ["downloads/a.mp4"], 1,
        [.borrow, .release]⟩ ∧
    downloadFile 3 5000 (fun _ => FetchOutcome.failNoFile "net") "a"
        ["downloads/a.mp4"] =
      some ⟨Except.ok "downloads/a.mp4", ["downloads/a.mp4"], 0, []⟩ :=
  ⟨by rfl,
   downloadFile_idempotent 3 5000 (fun _ => FetchOutcome.success)
     (fun _ => FetchOutcome.failNoFile "net") "a" []
     ⟨Except.ok "downloads/a.mp4", ["downloads/a.mp4"], 1, [.borrow, .release]⟩
     "downloads/a.mp4" (by rfl) (by rfl)⟩

theorem dlLoop_all_failNoFile (maxRetries retryDelay : Nat) (msg : Nat → String)
    (target : String) :
    ∀ d retries gas files fetches ops,
      retries + (d + 1) = maxRetries → d + 1 ≤ gas → target ∉ files →
      dlLoop maxRetries retryDelay (fun n => .failNoFile (msg n)) target gas
          retries files fetches ops =
        some ⟨Except.error (dlErrMsg maxRetries (msg (fetches + d))), files,
          fetches + d + 1, ops ++ retryOps retryDelay d⟩ := by
  intro d
  induction d with
  | zero =>
    intro retries gas files fetches ops hsum hgas hnot
    cases gas with
    | zero => omega
    | succ gas =>
      simp only [dlLoop]
      rw [if_neg hnot]
      rw [if_neg (by omega)]
      simp [retryOps]
  | succ d ih =>
    intro retries gas files fetches ops hsum hgas hnot
    cases gas with
    | zero => omega
    | succ gas =>
      simp only [dlLoop]
      rw [if_neg hnot]
      rw [if_pos (by omega)]
      rw [ih (retries + 1) gas files (fetches + 1)
        (ops ++ [DlOp.borrow, DlOp.wait retryDelay, DlOp.release])
        (by omega) (by omega) hnot]
      have h1 : fetches + 1 + d = fetches + (d + 1) := by omega
      simp [retryOps, h1, List.append_assoc]

theorem dlLoop_success_at (maxRetries retryDelay : Nat)
    (oracle : Nat → FetchOutcome) (target : String) :
    ∀ f retries gas files fetches ops,
      retries + f < maxRetries → f + 1 ≤ gas → target ∉ files →
      (∀ j, j < f → ∃ m, oracle (fetches + j) = FetchOutcome.failNoFile m) →
      oracle (fetches + f) = FetchOutcome.success →
      dlLoop maxRetries retryDelay oracle target gas retries files fetches ops =
        some ⟨Except.ok target, files ++ [target], fetches + f + 1,
          ops ++ retryOps retryDelay f⟩ := by
  intro f
  induction f with
  | zero =>
    intro retries gas files fetches ops hlt hgas hnot hfail hsucc
    cases gas with
    | zero => omega
    | succ gas =>
      simp only [dlLoop]
      rw [if_neg hnot]
      rw [show oracle fetches = FetchOutcome.success from by simpa using hsucc]
      simp [retryOps]
  | succ f ih =>
    intro retries gas files fetches ops hlt hgas hnot hfail hsucc
    cases gas with
    | zero => omega
    | succ gas =>
      obtain ⟨m, hm⟩ := hfail 0 (by omega)
      simp only [dlLoop]
      rw [if_neg hnot]
      rw [show oracle fetches = FetchOutcome.failNoFile m from by simpa using hm]
      dsimp only
      rw [if_pos (by omega)]
      have hfail2 : ∀ j, j < f →
          ∃ m2, oracle (fetches + 1 + j) = FetchOutcome.failNoFile m2 := by
        intro j hj
        obtain ⟨m2, hm2⟩ := hfail (j + 1) (by omega)
        have he : fetches + 1 + j = fetches + (j + 1) := by omega
        rw [he]
        exact ⟨m2, hm2⟩
      have hsucc2 : oracle (fetches + 1 + f) = FetchOutcome.success := by
        have he : fetches + 1 + f = fetches + (f + 1) := by omega
        rw [he]
        exact hsucc
      rw [ih (retries + 1) gas files (fetches + 1)
        (ops ++ [DlOp.borrow, DlOp.wait retryDelay, DlOp.release])
        (by omega) (by omega) hnot hfail2 hsucc2]
      have h1 : fetches + 1 + f = fetches + (f + 1) := by omega
      simp [retryOps, h1, List.append_assoc]

/-- C9 (amended): for a source whose failures do not create the target
file (`failNoFile` on every attempt — a network error or non-success
status before the write stream opens), `downloadFile` makes exactly
`maxRetries` fetch attempts — borrowing a handle for each attempt and
releasing it in the `finally` of each failed attempt, waiting the fixed
retry delay before each re-borrow — and then throws the
`'Download failed after ... attempts'` error carrying the last underlying
error message; for a source that first succeeds on attempt `k ≤ maxRetries`
(earlier failures leaving no file), it returns the target path having made
exactly `k` attempts.  (The claim as stated over arbitrary failing sources
is refuted by `downloadFile_midwrite_returns_early`: a failure that
leaves a partially-written target file makes the next iteration return
that file instead of retrying.) -/
theorem downloadFile_retry_contract :
    (∀ (maxRetries retryDelay : Nat) (msg : Nat → String) (filename : String)
       (files0 : List String), 1 ≤ maxRetries →
       targetPathOf filename ∉ files0 →
       downloadFile maxRetries retryDelay (fun n => .failNoFile (msg n))
           filename files0 =
         some ⟨Except.error (dlErrMsg maxRetries (msg (maxRetries - 1))), files0,
           maxRetries, retryOps retryDelay (maxRetries - 1)⟩) ∧
    (∀ (maxRetries retryDelay k : Nat) (oracle : Nat → FetchOutcome)
       (filename : String) (files0 : List String), 1 ≤ k → k ≤ maxRetries →
       targetPathOf filename ∉ files0 →
       (∀ j, j < k - 1 → ∃ m, oracle j = FetchOutcome.failNoFile m) →
       oracle (k - 1) = FetchOutcome.success →
       downloadFile maxRetries retryDelay oracle filename files0 =
         some ⟨Except.ok (targetPathOf filename),
           files0 ++ [targetPathOf filename], k, retryOps retryDelay (k - 1)⟩) := by
  constructor
  · intro maxRetries retryDelay msg filename files0 hmr hnot
    unfold downloadFile
    rw [dlLoop_all_failNoFile maxRetries retryDelay msg (targetPathOf filename)
      (maxRetries - 1) 0 (maxRetries + 1) files0 0 [] (by omega) (by omega) hnot]
    have h1 : 0 + (maxRetries - 1) = maxRetries - 1 := by omega
    have h2 : maxRetries - 1 + 1 = maxRetries := by omega
    rw [h1, h2]
    simp
  · intro maxRetries retryDelay k oracle filename files0 hk hkm hnot hfail hsucc
    unfold downloadFile
    rw [dlLoop_success_at maxRetries retryDelay oracle (targetPathOf filename)
      (k - 1) 0 (maxRetries + 1) files0 0 [] (by omega) (by omega) hnot
      (fun j hj => by simpa using hfail j hj)
      (by simpa using hsucc)]
    have h2 : 0 + (k - 1) + 1 = k := by omega
    rw [h2]
    simp

/-- C9 counterexample to the claim as stated: a source that fails on every
attempt by dying mid-write (`failPartialFile`) does not lead to
`maxRetries` attempts and an `ExhaustedRetries` error.  The first failed
attempt leaves the (partial) target file on disk, so the second iteration's
exists-check returns it: with `maxRetries = 3` the call returns
`Except.ok "downloads/a.mp4"` after exactly 1 fetch attempt. -/
theorem downloadFile_midwrite_returns_early :
    downloadFile 3 5000 (fun _ => FetchOutcome.failPartialFile "write error")
        "a" [] =
      some ⟨Except.ok "downloads/a.mp4", ["downloads/a.mp4"], 1,
        [.borrow, .wait 5000, .release]⟩ := by rfl

/-- Witness for `downloadFile_retry_contract`: with `maxRetries = 3`, an
always-failing (no-file) source yields the thrown error carrying the last
message after exactly 3 attempts, and a source succeeding on attempt 2
returns the path after exactly 2 attempts. -/
theorem downloadFile_retry_contract_witness :
    downloadFile 3 5000
        (fun n => FetchOutcome.failNoFile (if n = 2 then "last" else "early"))
        "a" [] =
      some ⟨Except.error (dlErrMsg 3 "last"), [], 3,
        retryOps 5000 2⟩ ∧
    downloadFile 3 5000
        (fun n => if n = 0 then FetchOutcome.failNoFile "first"
          else FetchOutcome.success) "a" [] =
      some ⟨Except.ok "downloads/a.mp4", ["downloads/a.mp4"], 2,
        retryOps 5000 1⟩ :=
  ⟨by
    have := downloadFile_retry_contract.1 3 5000
      (fun n => if n = 2 then "last" else "early") "a" [] (by omega) (by simp)
    simpa using this,
   by
    have := downloadFile_retry_contract.2 3 5000 2
      (fun n => if n = 0 then FetchOutcome.failNoFile "first"
        else FetchOutcome.success) "a" [] (by omega) (by omega) (by simp)
      (fun j hj => ⟨"first", by
        have hj0 : j = 0 := by omega
        subst hj0
        rfl⟩) (by rfl)
    simpa using this⟩

/-- C10: a `downloadFile` call whose sanitized target file already exists
returns that path at once with an empty pool-operation log — no handle is
borrowed or released — and an empty operation log leaves any pool state
unchanged under any interpretation of the operations. -/
theorem downloadFile_existing_skips_pool (maxRetries retryDelay : Nat)
    (oracle : Nat → FetchOutcome) (filename : String) (files : List String)
    (hex : targetPathOf filename ∈ files) :
    downloadFile maxRetries retryDelay oracle filename files =
      some ⟨Except.ok (targetPathOf filename), files, 0, []⟩ ∧
    (∀ (interp : DlOp → PoolState → PoolState) (ps : PoolState),
       opsFold interp [] ps = ps) := by
  constructor
  · unfold downloadFile
    simp [dlLoop, hex]
  · intro interp ps
    rfl

/-- Witness for `downloadFile_existing_skips_pool` at a concrete existing
file (with a filename whose illegal characters are sanitized). -/
theorem downloadFile_existing_skips_pool_witness :
    targetPathOf "a:b" ∈ ["downloads/a_b.mp4"] ∧
    (downloadFile 3 5000 (fun _ => FetchOutcome.failNoFile "net") "a:b"
        ["downloads/a_b.mp4"] =
      some ⟨Except.ok (targetPathOf "a:b"), ["downloads/a_b.mp4"], 0, []⟩ ∧
    (∀ (interp : DlOp → PoolState → PoolState) (ps : PoolState),
       opsFold interp [] ps = ps)) :=
  ⟨by decide,
   downloadFile_existing_skips_pool 3 5000 (fun _ => FetchOutcome.failNoFile "net")
     "a:b" ["downloads/a_b.mp4"] (by decide)⟩
